import Mathlib

/-!
Verification of the extraction pipeline of `src/kerko/extractors.py`.

The Python module is shallowly embedded: each extractor's `extract` method
becomes a Lean function over explicit record types for Zotero items, the
library context and field specifications.  Python `dict`s with string keys
become association lists read through `pyGet` (the model of `dict.get`),
`None`-or-value results become `Option`, and the one piece of mutable state
in the module (the lazily initialized translation catalog of
`LanguageExtractor`) is threaded explicitly as a `LangState` value.

Helpers of the repository that live outside `src/` (the collection
hierarchy's ancestor lookup, partial-date parsing, rich-text tag stripping,
sort-key normalization, the creator-type schema lookup) are modelled from
the specification; each such definition carries a doc comment starting with
"Modelled from the spec".  External collaborators (the pycountry language
database, gettext translation catalogs) are modelled as explicit read-only
parameters.
-/

namespace Kerko

/-- Model of Python `dict.get` over an association list with string keys:
the value of the first binding of `k`, or `none` when `k` is unbound. -/
def pyGet {α : Type} : List (String × α) → String → Option α
  | [], _ => none
  | (k', v) :: rest, k => if k' = k then some v else pyGet rest k

/-- Model of Python `dict.fromkeys(values)` de-duplication: keep the first
occurrence of each element, preserving order; `seen` accumulates the
elements already kept. -/
def pyDedupAux {α : Type} [DecidableEq α] (seen : List α) : List α → List α
  | [] => []
  | x :: xs => if x ∈ seen then pyDedupAux seen xs else x :: pyDedupAux (x :: seen) xs

/-- Order-preserving de-duplication, the model of
`dict.fromkeys(values).keys()` (extractors.py line 472). -/
def pyDedup {α : Type} [DecidableEq α] (l : List α) : List α := pyDedupAux [] l

/-- Model of Python `str.strip()` on a character list: drop whitespace from
both ends. -/
def pyStripChars (cs : List Char) : List Char :=
  ((cs.dropWhile Char.isWhitespace).reverse.dropWhile Char.isWhitespace).reverse

/-- Model of Python `str.strip()` (ASCII whitespace). -/
def pyStrip (s : String) : String := String.mk (pyStripChars s.data)

/-- Model of Python `str.lower()` (ASCII case folding). -/
def pyLower (s : String) : String := String.mk (s.data.map Char.toLower)

/-- Splitting a character list on a separator character; the result always
has at least one (possibly empty) group, like Python `re.split` on a
single-character pattern. -/
def pySplitCharAux (sep : Char) : List Char → List (List Char)
  | [] => [[]]
  | c :: rest =>
    match pySplitCharAux sep rest with
    | [] => [[]]
    | g :: gs => if c = sep then [] :: g :: gs else (c :: g) :: gs

/-- Model of splitting a string on a literal single-character separator
(`re.split` with such a pattern; the default `LanguageExtractor` separator
`";"` is one). -/
def pySplitSep (sep : Char) (s : String) : List String :=
  (pySplitCharAux sep s.data).map String.mk

/-- Model of Python `str.title()` on characters: uppercase a letter that
does not follow a letter, lowercase the others (`prev` tells whether the
previous character was a letter). -/
def pyTitleAux : Bool → List Char → List Char
  | _, [] => []
  | prev, c :: cs =>
    if c.isAlpha then (if prev then c.toLower else c.toUpper) :: pyTitleAux true cs
    else c :: pyTitleAux false cs

/-- Model of Python `str.title()`, the default `normalize_invalid` of
`LanguageExtractor` (extractors.py line 457). -/
def pyTitle (s : String) : String := String.mk (pyTitleAux false s.data)

/-- Modelled from the spec: the "text de-tagging" normalization utility
(`kerko.richtext.richtext_striptags`, whose module is not under `src/`):
drop markup tags, i.e. every maximal run of characters from an opening
`<` to its closing `>`, keeping the text outside tags.  The Boolean flag
tracks whether the scan is currently inside a tag. -/
def striptagsAux : Bool → List Char → List Char
  | _, [] => []
  | false, c :: cs => if c = '<' then striptagsAux true cs else c :: striptagsAux false cs
  | true, c :: cs => if c = '>' then striptagsAux false cs else striptagsAux true cs

/-- Modelled from the spec: `kerko.richtext.richtext_striptags` on strings. -/
def richtext_striptags (s : String) : String := String.mk (striptagsAux false s.data)

/-- Model of `RECORD_SEPARATOR = "\x1e"` (extractors.py line 22): the private control
character joining multiple logical values inside one scalar search field. -/
def RECORD_SEPARATOR : String := "\x1e"

/-- One entry of `item["data"]["creators"]`: a creator `dict`.  Keys that may
be absent are `Option`s (`creator.get(...)` yields `None` for them). -/
structure Creator where
  name : Option String := none
  firstName : Option String := none
  lastName : Option String := none
  creatorType : Option String := none
deriving DecidableEq

/-- One entry of an item-type field schema (`library_context.item_fields`),
a `dict` read via `.get("field")`. -/
structure FieldInfo where
  field : Option String := none
deriving DecidableEq

/-- One entry of an item-type creator-type schema
(`library_context.creator_types`), read via `.get("creatorType")`. -/
structure CreatorTypeInfo where
  creatorType : Option String := none
deriving DecidableEq

/-- Model of `item["data"]`: the bibliographic data of an item.  The fixed keys the
extractors read are explicit fields; the remaining string-valued
bibliographic fields (title, caseName, subject, ...) that are looked up by
a dynamic field name are the association list `fields`. -/
structure ItemData where
  itemType : Option String := none
  creators : List Creator := []
  collections : List String := []
  language : Option String := none
  fields : List (String × String) := []
deriving DecidableEq

/-- Model of `item["meta"]`: derived metadata, of which the extractors read
`parsedDate`. -/
structure ItemMeta where
  parsedDate : Option String := none
deriving DecidableEq

/-- A Zotero item as the extractors read it.  Every access in the modelled
code goes through `item.get("data", {})` or `item.get("meta", {})`, so a
missing `data`/`meta` key and an empty one are indistinguishable and both
are the default value. -/
structure Item where
  data : ItemData := {}
  meta : ItemMeta := {}
deriving DecidableEq

/-- A collection record of `library_context.collections`.  `name` models
`collections[k].get("data", {}).get("name", "")`; `parent` is the parent
collection key, used by the (spec-modelled) ancestor-chain lookup. -/
structure CollectionRec where
  name : String := ""
  parent : Option String := none
deriving DecidableEq

/-- The read-only library context: item-type labels, item-type field
schemas, creator-type schemas, the collection hierarchy and the library
identity. -/
structure LibraryContext where
  item_types : List (String × String) := []
  item_fields : List (String × List FieldInfo) := []
  creator_types : List (String × List CreatorTypeInfo) := []
  collections : List (String × CollectionRec) := []
  library_id : String := ""
  library_type : String := ""
deriving DecidableEq

/-- Modelled from the spec: the ancestor-chain walk behind
`library_context.collections.ancestors` ("collection-key → collection
record (with ancestor-chain lookup)"; the `Collections` class is not under
`src/`).  Walks parent links, returning the chain of keys from the root
ancestor down to (and including) the given key; `fuel` bounds the walk. -/
def ancestorsFuel (cols : List (String × CollectionRec)) : Nat → String → List String
  | 0, k => [k]
  | fuel + 1, k =>
    match pyGet cols k with
    | none => [k]
    | some c =>
      match c.parent with
      | none => [k]
      | some p => ancestorsFuel cols fuel p ++ [k]

/-- Modelled from the spec: `library_context.collections.ancestors(key)`,
the root-first ancestor chain of a collection key, itself included. -/
def LibraryContext.ancestors (ctx : LibraryContext) (k : String) : List String :=
  ancestorsFuel ctx.collections ctx.collections.length k

/-- The entries one creator contributes to the creators search field
(extractors.py lines 346-360): the stripped display name when `name` is a
non-empty string, then either both concatenations "First Last" and
"Last, First", or the single non-empty one of first/last name. -/
def creatorEntries (creator : Creator) : List String :=
  let base :=
    if creator.name.getD "" ≠ "" then [pyStrip (richtext_striptags (creator.name.getD ""))]
    else []
  let firstname := pyStrip (richtext_striptags (creator.firstName.getD ""))
  let lastname := pyStrip (richtext_striptags (creator.lastName.getD ""))
  base ++
    (if firstname ≠ "" ∧ lastname ≠ "" then
      [firstname ++ " " ++ lastname, lastname ++ ", " ++ firstname]
    else if firstname ≠ "" then [firstname]
    else if lastname ≠ "" then [lastname]
    else [])

/-- Model of `CreatorsExtractor.extract` (extractors.py lines 344-361): flatten the
per-creator entries and join them with the record separator; `None` when no
entry accumulated. -/
def CreatorsExtractor.extract (item : Item) : Option String :=
  let creators := item.data.creators.flatMap creatorEntries
  if creators = [] then none else some (String.intercalate RECORD_SEPARATOR creators)

/-- The item of the creators-search example: a single creator with
`firstName` "Jane" and `lastName` "Doe" and no display name. -/
def janeDoeItem : Item :=
  { data := { creators := [{ firstName := some "Jane", lastName := some "Doe" }] } }

/-- The spec parameter the collection facet extractors read
(`spec.collection_key`): the facet's target (root) collection key. -/
structure FacetSpec where
  collection_key : String
deriving DecidableEq

/-- Model of `_expand_paths` (extractors.py lines 691-698): the prefix paths
`[path[0 : i + 1] for i in range(len(path))]`. -/
def _expand_paths (path : List String) : List (List String) :=
  (List.range path.length).map (fun i => path.take (i + 1))

/-- Model of `CollectionFacetTreeExtractor.extract` (extractors.py lines 707-726):
for each item collection known to the library whose root ancestor is the
facet's target collection and whose ancestor chain is longer than one,
expand the root-exclusive chain into prefix paths and pair each with the
stripped collection name of its last segment; the accumulating set
prevents duplication, and an empty set yields `None`. -/
def CollectionFacetTreeExtractor.extract (item : Item) (ctx : LibraryContext)
    (spec : FacetSpec) : Option (Finset (List String × String)) :=
  let encoded_ancestors : Finset (List String × String) :=
    item.data.collections.foldl (fun acc collection_key =>
      if (pyGet ctx.collections collection_key).isNone then acc
      else
        let ancestors := ctx.ancestors collection_key
        if ancestors.length ≤ 1 ∨ ancestors.head? ≠ some spec.collection_key then acc
        else
          let subpath := ancestors.drop 1
          (_expand_paths subpath).foldl (fun acc path =>
            let label := pyStrip (((pyGet ctx.collections (path.getLastD "")).getD {}).name)
            insert (path, label) acc) acc) ∅
  if encoded_ancestors = ∅ then none else some encoded_ancestors

/-- The maximal digit runs of a character list, left to right (`acc` holds
the reversed run in progress). -/
def digitRunsAux (acc : List Char) : List Char → List (List Char)
  | [] => if acc = [] then [] else [acc.reverse]
  | c :: cs =>
    if c.isDigit then digitRunsAux (c :: acc) cs
    else if acc = [] then digitRunsAux [] cs
    else acc.reverse :: digitRunsAux [] cs

/-- The number a digit run denotes. -/
def natOfDigits (cs : List Char) : Nat :=
  cs.foldl (fun n c => 10 * n + (c.toNat - '0'.toNat)) 0

/-- Modelled from the spec: `kerko.datetime.parse_partial_date` (the
`kerko.datetime` module is not under `src/`): parse a normalized textual
date into "(year, month, day) with partial-date semantics (missing
month/day allowed)"; the year is the first four-digit run of the text, and
a missing month or day defaults to the parser's lowest valid value, 1
(the spec's sort-date example: "circa 1999" parses to year 1999, month and
day defaulting to 1). -/
def parse_partial_date (s : String) : Nat × Nat × Nat :=
  match (digitRunsAux [] s.data).dropWhile (fun r => r.length ≠ 4) with
  | [] => (0, 1, 1)
  | y :: rest =>
    (natOfDigits y, ((rest.head?).map natOfDigits).getD 1,
      (((rest.drop 1).head?).map natOfDigits).getD 1)

/-- Model of `YearFacetExtractor.extract` (extractors.py lines 804-810): for a
non-empty `parsedDate`, the hierarchical century/decade/year path, emitted
as its prefix-path expansion. -/
def YearFacetExtractor.extract (item : Item) : Option (List (List String)) :=
  let parsed_date := item.meta.parsedDate.getD ""
  if parsed_date ≠ "" then
    let (year, _month, _day) := parse_partial_date parsed_date
    let decade := year / 10 * 10
    let century := year / 100 * 100
    some (_expand_paths [toString century, toString decade, toString year])
  else none

/-- The constructor arguments of `InCollectionExtractor` (extractors.py
lines 732-750). -/
structure InCollectionConfig where
  collection_key : String
  true_only : Bool := true
  check_subcollections : Bool := true
deriving DecidableEq

/-- Model of `InCollectionExtractor.extract` (extractors.py lines 752-766).
`itertools.chain(*[...])` flattens each element of the comprehension: an
`ancestors` list contributes its keys, but when `check_subcollections` is
false the element is the bare key string `c`, and a Python string is an
iterable of its one-character substrings, so it contributes its characters
to `item_collections`. -/
def InCollectionExtractor.extract (cfg : InCollectionConfig) (item : Item)
    (ctx : LibraryContext) : Option Bool :=
  let item_collections :=
    item.data.collections.flatMap (fun c =>
      if cfg.check_subcollections then ctx.ancestors c
      else c.data.map (fun ch => String.mk [ch]))
  let is_in := item_collections.contains cfg.collection_key
  if !cfg.true_only then some is_in
  else if is_in then some true
  else none

/-- Model of `ItemTitleExtractor.extract` (extractors.py lines 229-236): for an item
type that is not "annotation"/"note" and has a non-empty field schema, read
the item-data field named by the schema's first entry (defaulting to the
empty string); otherwise the empty string. -/
def ItemTitleExtractor.extract (item : Item) (ctx : LibraryContext) : String :=
  match item.data.itemType with
  | none => ""
  | some t =>
    if t = "annotation" ∨ t = "note" then ""
    else
      match pyGet ctx.item_fields t with
      | none => ""
      | some [] => ""
      | some (f0 :: _) =>
        match f0.field with
        | none => ""
        | some fname => (pyGet item.data.fields fname).getD ""

/-- How a Python f-string renders the `itemType` value: `None` for a
missing key, the string itself otherwise. -/
def optRepr : Option String → String
  | none => "None"
  | some s => s

/-- Model of `ItemTypeLabelExtractor.extract` (extractors.py lines 262-268), with
the `Extractor.warning` side channel made explicit as the returned list of
messages: the label when the item type is truthy and known, else `None`,
warning unless the type is exactly "attachment". -/
def ItemTypeLabelExtractor.extract (item : Item) (ctx : LibraryContext) :
    Option String × List String :=
  let item_type := item.data.itemType
  let known :=
    match item_type with
    | some t => if t ≠ "" then pyGet ctx.item_types t else none
    | none => none
  match known with
  | some label => (some label, [])
  | none =>
    if item_type ≠ some "attachment" then
      (none, ["Missing or unknown item type '" ++ optRepr item_type ++ "'"])
    else (none, [])

/-- A field specification (`BaseFieldSpec`): the output key and the
per-value `encode` method. -/
structure FieldSpec (V E : Type) where
  key : String
  encode : V → E

/-- Model of `encode_single` (extractors.py lines 25-27). -/
def encode_single {V E : Type} (value : V) (spec : FieldSpec V E) : E :=
  spec.encode value

/-- Model of `encode_multiple` (extractors.py lines 30-32):
`[spec.encode(item) for item in value]`. -/
def encode_multiple {V E : Type} (value : List V) (spec : FieldSpec V E) : List E :=
  value.map (fun item => spec.encode item)

/-- The extraction contract of the `Extractor` base class: `extract` returns
`none` for "no value could be extracted", and `encode` is the extractor's
encoding function (the constructor's `encode` argument, `encode_single` by
default). -/
structure ExtractorSig (I C V E D : Type) where
  extract : I → C → FieldSpec V E → Option V
  encode : V → FieldSpec V E → D

/-- A document: the output mapping of field keys to stored values, `none`
for an absent key. -/
def Document (D : Type) : Type := String → Option D

/-- The empty document. -/
def Document.empty {D : Type} : Document D := fun _ => none

/-- Model of `Extractor.extract_and_store` (extractors.py lines 103-109): call
`extract`; when the result is not `None`, assign its encoded version to
`document[spec.key]`. -/
def Extractor.extract_and_store {I C V E D : Type} (ex : ExtractorSig I C V E D)
    (document : Document D) (item : I) (library_context : C) (spec : FieldSpec V E) :
    Document D :=
  match ex.extract item library_context spec with
  | none => document
  | some extracted_value =>
    fun k => if k = spec.key then some (ex.encode extracted_value spec) else document k

/-- The dynamically-typed values child extractors hand to the composite
extractors: `None`, booleans, numbers, strings and lists. -/
inductive PyVal where
  | none
  | bool (b : Bool)
  | int (n : Int)
  | str (s : String)
  | list (xs : List PyVal)

/-- Python truthiness of a `PyVal`. -/
def PyVal.truthy : PyVal → Bool
  | .none => false
  | .bool b => b
  | .int n => n != 0
  | .str s => s != ""
  | .list xs => !xs.isEmpty

/-- Model of `isinstance(value, Iterable) and not isinstance(value, str)` over the
modelled values: only lists qualify (`None`, booleans and numbers are not
iterable, and strings are excluded by the second conjunct). -/
def PyVal.isNonStrIterable : PyVal → Bool
  | .list _ => true
  | _ => false

/-- The elements `values.extend(value)` adds for a non-string iterable. -/
def PyVal.elements : PyVal → List PyVal
  | .list xs => xs
  | _ => []

/-- A child extractor as `MultiExtractor` sees it: its declared `format`
and its `extract` method. -/
structure ChildExtractor (I C S : Type) where
  format : String
  run : I → C → S → PyVal

/-- The loop of `MultiExtractor.extract` (extractors.py lines 161-167) with
the accumulated `values`; the `assert self.format == extractor.format` of
line 162 is modelled as an `Except` error. -/
def MultiExtractor.extractAux {I C S : Type} (fmt : String) (item : I) (ctx : C)
    (spec : S) : List (ChildExtractor I C S) → List PyVal → Except String (List PyVal)
  | [], values => .ok values
  | ex :: rest, values =>
    if fmt = ex.format then
      let value := ex.run item ctx spec
      let values :=
        if value.isNonStrIterable then values ++ value.elements
        else if value.truthy then values ++ [value]
        else values
      MultiExtractor.extractAux fmt item ctx spec rest values
    else .error "AssertionError"

/-- Model of `MultiExtractor.extract` (extractors.py lines 159-168): run every child
extractor in order, merging results into one sequence; `values or None` at
the end. -/
def MultiExtractor.extract {I C S : Type} (fmt : String)
    (extractors : List (ChildExtractor I C S)) (item : I) (ctx : C) (spec : S) :
    Except String (Option (List PyVal)) :=
  (MultiExtractor.extractAux fmt item ctx spec extractors []).map
    (fun values => if values.isEmpty then Option.none else some values)

/-- The per-child contribution of the multi-merge policy, in the
specification's words: the elements of a non-string-iterable result, the
result itself when truthy (a scalar in the spec's vocabulary, which calls
a text value a "single scalar string"), nothing otherwise. -/
def multiContribution (value : PyVal) : List PyVal :=
  if value.isNonStrIterable then value.elements
  else if value.truthy then [value]
  else []

/-- A record of the external pycountry language database: the ISO 639-3
code, the optional ISO 639-1 and bibliographic codes, and the English
name. -/
structure LanguageRec where
  alpha_3 : String
  alpha_2 : Option String := none
  bibliographic : Option String := none
  name : String := ""
deriving DecidableEq

/-- Model of `pycountry.languages.get(alpha_3=...)`, case-insensitive per the
docstring of `normalize_language`. -/
def dbGetAlpha3 (db : List LanguageRec) (code : String) : Option LanguageRec :=
  db.find? (fun r => pyLower r.alpha_3 == pyLower code)

/-- Model of `pycountry.languages.get(bibliographic=...)`, case-insensitive. -/
def dbGetBiblio (db : List LanguageRec) (code : String) : Option LanguageRec :=
  db.find? (fun r => r.bibliographic.map pyLower == some (pyLower code))

/-- Model of `pycountry.languages.get(alpha_2=...)`, case-insensitive. -/
def dbGetAlpha2 (db : List LanguageRec) (code : String) : Option LanguageRec :=
  db.find? (fun r => r.alpha_2.map pyLower == some (pyLower code))

/-- Model of `pycountry.languages.get(name=...)`, case-insensitive. -/
def dbGetName (db : List LanguageRec) (nm : String) : Option LanguageRec :=
  db.find? (fun r => pyLower r.name == pyLower nm)

/-- The constructor arguments of `LanguageExtractor` (extractors.py lines
423-457).  The `values_separator_re` regular expression is modelled as a
literal separator character (its default `";"` is one). -/
structure LangConfig where
  values_separator : Char := ';'
  normalize : Bool := true
  locale : String := "en"
  allow_invalid : Bool := true
  normalize_invalid : String → String := pyTitle

/-- The external gettext resource bundle: for each locale, the iso639-3
translation catalog when one exists (`gettext.translation` raises
`FileNotFoundError` — modelled as `none` — otherwise). -/
structure LangEnv where
  catalogs : List (String × List (String × String)) := []

/-- The mutable instance state of `LanguageExtractor` (extractors.py lines
458-459): the lazily initialized translation catalog and its guard flag. -/
structure LangState where
  translations : Option (List (String × String)) := none
  translations_initialized : Bool := false

/-- The catalog `translate_language` establishes on first use (extractors.py
lines 516-526): for a locale whose primary subtag is not "en", the gettext
catalog of `locale.replace("-", "_")` when the bundle has one. -/
def initTranslations (cfg : LangConfig) (env : LangEnv) :
    Option (List (String × String)) :=
  let locale := String.mk (cfg.locale.data.map (fun c => if c = '-' then '_' else c))
  if pyStrip (String.mk (locale.data.takeWhile (fun c => c != '_'))) ≠ "en" then
    pyGet env.catalogs locale
  else none

/-- The first-use initialization guard of `translate_language`: a state
already initialized is kept, otherwise the catalog is computed once and the
flag set. -/
def stInit (cfg : LangConfig) (env : LangEnv) (st : LangState) : LangState :=
  if st.translations_initialized then st
  else { translations := initTranslations cfg env, translations_initialized := true }

/-- Model of `catalog.gettext(name)`: the translation when the catalog has one, the
name unchanged otherwise. -/
def catalogGettext (cat : List (String × String)) (nm : String) : String :=
  (pyGet cat nm).getD nm

/-- Model of `LanguageExtractor.translate_language` (extractors.py lines 515-530):
initialize the catalog on first use, then translate through it (or return
the name untranslated when there is none). -/
def LanguageExtractor.translate_language (cfg : LangConfig) (env : LangEnv)
    (st : LangState) (nm : String) : String × LangState :=
  let st := stInit cfg env st
  match st.translations with
  | some t => (catalogGettext t nm, st)
  | none => (nm, st)

/-- The language-database match of `normalize_language` (extractors.py
lines 499-508): a 3-letter ISO 639-3 code, then a 3-letter bibliographic
code, then a 2-letter code, then an English name, each case-insensitive,
with the region suffix after `-`/`_` ignored for the code lookups. -/
def langMatch (db : List LanguageRec) (value : String) : Option LanguageRec :=
  let lang := String.mk (value.data.takeWhile (fun c => c != '-' && c != '_'))
  if lang.length = 3 then
    match dbGetAlpha3 db lang with
    | some m => some m
    | none => dbGetBiblio db lang
  else if lang.length = 2 then dbGetAlpha2 db lang
  else dbGetName db value

/-- Model of `LanguageExtractor.normalize_language` (extractors.py lines 475-513):
strip the value; on a database match, the (ISO 639-3 code, translated name)
pair; otherwise, when the value is truthy and invalid values are allowed,
the (lowercased value, `normalize_invalid` label) pair; else `None`. -/
def LanguageExtractor.normalize_language (cfg : LangConfig) (env : LangEnv)
    (db : List LanguageRec) (st : LangState) (value : String) :
    Option (String × String) × LangState :=
  let value := pyStrip value
  match langMatch db value with
  | some m =>
    let (translated, st') := LanguageExtractor.translate_language cfg env st m.name
    (some (m.alpha_3, translated), st')
  | none =>
    if value ≠ "" ∧ cfg.allow_invalid then
      (some (pyLower value, cfg.normalize_invalid value), st)
    else (none, st)

/-- Model of `[self.normalize_language(value) for value in values]` with the catalog
state threaded left to right. -/
def normalizeValues (cfg : LangConfig) (env : LangEnv) (db : List LanguageRec) :
    LangState → List String → List (Option (String × String)) × LangState
  | st, [] => ([], st)
  | st, v :: vs =>
    let (r, st') := LanguageExtractor.normalize_language cfg env db st v
    let (rs, st'') := normalizeValues cfg env db st' vs
    (r :: rs, st'')

/-- Model of `LanguageExtractor.extract` (extractors.py lines 461-473): split the
raw language field on the separator; normalize each piece (or, with
`normalize` off, keep stripped truthy pieces verbatim as (value, value)
pairs); de-duplicate preserving order via `dict.fromkeys`, drop falsy
entries, `or None`. -/
def LanguageExtractor.extract (cfg : LangConfig) (env : LangEnv)
    (db : List LanguageRec) (st : LangState) (item : Item) :
    Option (List (String × String)) × LangState :=
  let values := pySplitSep cfg.values_separator (item.data.language.getD "")
  let (vals, st') :=
    if cfg.normalize then normalizeValues cfg env db st values
    else ((values.filter (fun v => v != "")).map (fun v => some (pyStrip v, pyStrip v)), st)
  let result := (pyDedup vals).filterMap id
  (if result.isEmpty then none else some result, st')

/-- Modelled from the spec: `kerko.text.sort_normalize` (the `kerko.text`
module is not under `src/`), the "Unicode normalization + case folding for
locale-aware ordering" of sort keys, modelled as ASCII case folding. -/
def sort_normalize (s : String) : String := pyLower s

/-- Model of `_prepare_sort_text` (extractors.py lines 832-840): strip markup tags
(`Markup(text).striptags()`, modelled by the same de-tagger as
`richtext_striptags`), then normalize for sorting. -/
def _prepare_sort_text (text : String) : String :=
  sort_normalize (richtext_striptags text)

/-- Modelled from the spec: `library_context.get_creator_types(item_data)`
(the `LibraryContext` class is not under `src/`): the creator-type schema
list declared for the item data's type ("item-type → creator-type schema
list"), empty for a missing or unknown type. -/
def LibraryContext.get_creator_types (ctx : LibraryContext) (d : ItemData) :
    List CreatorTypeInfo :=
  match d.itemType with
  | some t => (pyGet ctx.creator_types t).getD []
  | none => []

/-- Python `s == opt` where `opt` may be `None`
(`creator.get("creatorType", "") == creator_type.get("creatorType")`):
a string never equals `None`. -/
def pyEqStrOpt (s : String) : Option String → Bool
  | some t => s == t
  | none => false

/-- The string `append_creator` builds for one creator (extractors.py lines
857-863): the non-empty sort-prepared last/first/display name parts joined
by the `" zzz "` sentinel. -/
def appendCreatorText (creator : Creator) : String :=
  String.intercalate " zzz "
    (([_prepare_sort_text (creator.lastName.getD ""),
       _prepare_sort_text (creator.firstName.getD ""),
       _prepare_sort_text (creator.name.getD "")]).filter (fun p => p != ""))

/-- The creator-type walk of `SortCreatorExtractor.extract` (extractors.py
lines 871-876): collect the entries of the first creator type with at
least one matching creator; fall through to the next type otherwise. -/
def sortCreatorLoop (item : Item) : List CreatorTypeInfo → List String
  | [] => []
  | ct :: rest =>
    let creators := item.data.creators.filterMap (fun c =>
      if pyEqStrOpt (c.creatorType.getD "") ct.creatorType then some (appendCreatorText c)
      else none)
    if creators.isEmpty then sortCreatorLoop item rest else creators

/-- Model of `SortCreatorExtractor.extract` (extractors.py lines 853-877): always a
string — the collected creator entries joined by the `" zzzzzz "` sentinel,
the empty string when no creator matched any declared creator type. -/
def SortCreatorExtractor.extract (item : Item) (ctx : LibraryContext) : String :=
  String.intercalate " zzzzzz " (sortCreatorLoop item (ctx.get_creator_types item.data))

/-- Model of `SortCreatorExtractor` under the storing contract: the Python method
always returns a `str` — never `None` — so its `extract` contract view is
`some` of that string, with the default `encode_single` encoding. -/
def SortCreatorExtractor.sig (E : Type) : ExtractorSig Item LibraryContext String E E :=
  { extract := fun item ctx _ => some (SortCreatorExtractor.extract item ctx),
    encode := encode_single }

/-- One configured field's extractor in the pipeline model: either a
stateless extraction function of (item, library context), or the stateful
`LanguageExtractor` with its configuration, database and encoding. -/
inductive PipeStep (D : Type) where
  | pure (f : Item → LibraryContext → Option D)
  | language (cfg : LangConfig) (db : List LanguageRec)
      (enc : List (String × String) → D)

/-- A configured field: its output key, its extractor and — extractor
instances being reused across every item and run — the mutable instance
state of the language extractor (trivial for stateless extractors). -/
structure PipeField (D : Type) where
  key : String
  step : PipeStep D
  st : LangState := {}

/-- Run one field's extractor, returning the extracted value and the field
with its instance state updated. -/
def runField {D : Type} (env : LangEnv) (item : Item) (ctx : LibraryContext)
    (f : PipeField D) : Option D × PipeField D :=
  match f.step with
  | .pure g => (g item ctx, f)
  | .language cfg db enc =>
    let (r, st') := LanguageExtractor.extract cfg env db f.st item
    (r.map enc, { f with st := st' })

/-- The storing step of `extract_and_store` as the pipeline applies it: a
non-`None` extracted value is assigned under the field's key. -/
def storeDoc {D : Type} (doc : Document D) (key : String) : Option D → Document D
  | Option.none => doc
  | some value => fun k => if k = key then some value else doc k

/-- The pipeline of §2 of the spec: for each configured field in order,
extract and — for a non-`None` result — store under the field's key (the
storing step of `Extractor.extract_and_store`); returns the document and
the fields with their instance states updated. -/
def runPipeline {D : Type} (env : LangEnv) (item : Item) (ctx : LibraryContext) :
    List (PipeField D) → Document D → Document D × List (PipeField D)
  | [], doc => (doc, [])
  | f :: rest, doc =>
    let r := runField env item ctx f
    let q := runPipeline env item ctx rest (storeDoc doc f.key r.1)
    (q.1, r.2 :: q.2)

/-- The translation a catalog state applies to a name. -/
def applyTranslations (tr : Option (List (String × String))) (nm : String) : String :=
  match tr with
  | some t => catalogGettext t nm
  | none => nm

/-- The database record a value resolves to (a junk record when none). -/
def langMatchD (db : List LanguageRec) (v : String) : LanguageRec :=
  (langMatch db (pyStrip v)).getD { alpha_3 := "", name := "" }

/-- The resolved (ISO 639-3 code, translated name) pair of one separator
entry, for a state whose catalog initialization yields `stInit`. -/
def resolvedPair (cfg : LangConfig) (env : LangEnv) (db : List LanguageRec)
    (st : LangState) (v : String) : String × String :=
  ((langMatchD db v).alpha_3,
    applyTranslations (stInit cfg env st).translations (langMatchD db v).name)

/-- A two-record instance of the language database: English (with 2-letter
code "en") and French (with 2-letter code "fr" and bibliographic 3-letter
code "fre"). -/
def langDb : List LanguageRec :=
  [{ alpha_3 := "eng", alpha_2 := some "en", name := "English" },
   { alpha_3 := "fra", alpha_2 := some "fr", bibliographic := some "fre", name := "French" }]

/-- An item whose language field mixes a 2-letter code, a bibliographic
3-letter code and an ISO 639-3 code, with a duplicate resolution. -/
def langItem : Item := { data := { language := some "en; fre; eng" } }

/-- An item with `meta.parsedDate` "2023-05-14". -/
def y2023Item : Item := { meta := { parsedDate := some "2023-05-14" } }

/-- An item that belongs to the single collection "ABCDEFGH". -/
def inCollItem : Item := { data := { collections := ["ABCDEFGH"] } }

/-- An item of type "attachment" (a type without a label in the item-type
map). -/
def attachmentItem : Item := { data := { itemType := some "attachment" } }

/-- A library context holding the collection chain ROOT → AAAA → BBBB. -/
def facetCtx : LibraryContext :=
  { collections :=
      [("ROOT", { name := "Root", parent := none }),
       ("AAAA", { name := "Sub A", parent := some "ROOT" }),
       ("BBBB", { name := "Sub B", parent := some "AAAA" })] }

/-- An item in the leaf collection BBBB of `facetCtx`. -/
def facetItem : Item := { data := { collections := ["BBBB"] } }

/-- A child extractor returning a list (a non-string iterable). -/
def multiChildList : ChildExtractor Unit Unit Unit :=
  { format := "data", run := fun _ _ _ => PyVal.list [PyVal.str "a", PyVal.int 3] }

/-- A child extractor returning `None` (falsy, not iterable). -/
def multiChildNone : ChildExtractor Unit Unit Unit :=
  { format := "data", run := fun _ _ _ => PyVal.none }

/-- A child extractor returning a non-empty string (truthy scalar). -/
def multiChildStr : ChildExtractor Unit Unit Unit :=
  { format := "data", run := fun _ _ _ => PyVal.str "x" }

/-- An item of type "book" carrying a title field. -/
def bookItem : Item :=
  { data := { itemType := some "book", fields := [("title", "The Title")] } }

/-- A library context whose schema declares "title" as the first field of
item type "book". -/
def bookCtx : LibraryContext :=
  { item_fields := [("book", [{ field := some "title" }])],
    item_types := [("book", "Book")] }

/-- A one-field pipeline holding a language extractor instance. -/
def langPipeline : List (PipeField (List (String × String))) :=
  [{ key := "language", step := .language {} langDb (fun l => l) }]


/-! Helper lemmas: order-preserving de-duplication (`pyDedup`). -/

theorem pyDedupAux_sublist {α : Type} [DecidableEq α] (l : List α) :
    ∀ seen, (pyDedupAux seen l).Sublist l := by
  induction l with
  | nil => intro seen; simp [pyDedupAux]
  | cons x xs ih =>
    intro seen
    unfold pyDedupAux
    by_cases h : x ∈ seen
    · simp only [h, if_true]
      exact (ih seen).cons x
    · simp only [h, if_false]
      exact (ih (x :: seen)).cons₂ x

theorem mem_pyDedupAux {α : Type} [DecidableEq α] (l : List α) :
    ∀ seen a, a ∈ pyDedupAux seen l ↔ a ∈ l ∧ a ∉ seen := by
  induction l with
  | nil => intro seen a; simp [pyDedupAux]
  | cons x xs ih =>
    intro seen a
    unfold pyDedupAux
    by_cases h : x ∈ seen
    · simp only [h, if_true]
      rw [ih]
      constructor
      · rintro ⟨h1, h2⟩; exact ⟨List.mem_cons_of_mem x h1, h2⟩
      · rintro ⟨h1, h2⟩
        rcases List.mem_cons.mp h1 with rfl | h1
        · exact absurd h h2
        · exact ⟨h1, h2⟩
    · simp only [h, if_false, List.mem_cons]
      rw [ih]
      constructor
      · rintro (rfl | ⟨h1, h2⟩)
        · exact ⟨Or.inl rfl, h⟩
        · refine ⟨Or.inr h1, fun hs => h2 (List.mem_cons_of_mem x hs)⟩
      · rintro ⟨rfl | h1, h2⟩
        · exact Or.inl rfl
        · by_cases hax : a = x
          · exact Or.inl hax
          · exact Or.inr ⟨h1, by simp [List.mem_cons, hax, h2]⟩

theorem pyDedupAux_nodup {α : Type} [DecidableEq α] (l : List α) :
    ∀ seen, (pyDedupAux seen l).Nodup := by
  induction l with
  | nil => intro seen; simp [pyDedupAux]
  | cons x xs ih =>
    intro seen
    unfold pyDedupAux
    by_cases h : x ∈ seen
    · simp only [h, if_true]; exact ih seen
    · simp only [h, if_false]
      refine List.nodup_cons.mpr ⟨?_, ih (x :: seen)⟩
      intro hmem
      exact ((mem_pyDedupAux xs (x :: seen) x).mp hmem).2 (List.mem_cons_self x seen)

theorem pyDedup_sublist {α : Type} [DecidableEq α] (l : List α) : (pyDedup l).Sublist l :=
  pyDedupAux_sublist l []

theorem mem_pyDedup {α : Type} [DecidableEq α] (l : List α) (a : α) :
    a ∈ pyDedup l ↔ a ∈ l := by
  rw [pyDedup, mem_pyDedupAux]
  simp

theorem pyDedup_nodup {α : Type} [DecidableEq α] (l : List α) : (pyDedup l).Nodup :=
  pyDedupAux_nodup l []

/-! Helper lemmas: the lazily initialized translation catalog. -/

theorem stInit_idem (cfg : LangConfig) (env : LangEnv) (st : LangState) :
    stInit cfg env (stInit cfg env st) = stInit cfg env st := by
  unfold stInit
  by_cases h : st.translations_initialized <;> simp [h]

theorem translate_language_eq (cfg : LangConfig) (env : LangEnv) (st : LangState)
    (nm : String) :
    LanguageExtractor.translate_language cfg env st nm =
      (applyTranslations (stInit cfg env st).translations nm, stInit cfg env st) := by
  unfold LanguageExtractor.translate_language applyTranslations
  cases h : (stInit cfg env st).translations <;> simp [h]

theorem normalize_language_state (cfg : LangConfig) (env : LangEnv)
    (db : List LanguageRec) (st : LangState) (v : String) :
    (LanguageExtractor.normalize_language cfg env db st v).2 = st ∨
    (LanguageExtractor.normalize_language cfg env db st v).2 = stInit cfg env st := by
  unfold LanguageExtractor.normalize_language
  cases h : langMatch db (pyStrip v) with
  | some m =>
    right
    simp only [h, translate_language_eq]
  | none =>
    simp only [h]
    by_cases hv : pyStrip v ≠ "" ∧ cfg.allow_invalid <;> simp [hv]

theorem normalize_language_stInit (cfg : LangConfig) (env : LangEnv)
    (db : List LanguageRec) (st : LangState) (v : String) :
    stInit cfg env (LanguageExtractor.normalize_language cfg env db st v).2 =
      stInit cfg env st := by
  rcases normalize_language_state cfg env db st v with h | h
  · rw [h]
  · rw [h, stInit_idem]

theorem normalize_language_congr (cfg : LangConfig) (env : LangEnv)
    (db : List LanguageRec) (st₁ st₂ : LangState) (v : String)
    (h : stInit cfg env st₁ = stInit cfg env st₂) :
    (LanguageExtractor.normalize_language cfg env db st₁ v).1 =
      (LanguageExtractor.normalize_language cfg env db st₂ v).1 := by
  unfold LanguageExtractor.normalize_language
  cases hm : langMatch db (pyStrip v) with
  | some m => simp only [hm, translate_language_eq, h]
  | none =>
    simp only [hm]
    by_cases hv : pyStrip v ≠ "" ∧ cfg.allow_invalid = true <;> simp [hv]

theorem normalizeValues_state (cfg : LangConfig) (env : LangEnv)
    (db : List LanguageRec) (vs : List String) :
    ∀ st, (normalizeValues cfg env db st vs).2 = st ∨
      (normalizeValues cfg env db st vs).2 = stInit cfg env st := by
  induction vs with
  | nil => intro st; left; rfl
  | cons v rest ih =>
    intro st
    unfold normalizeValues
    simp only []
    rcases normalize_language_state cfg env db st v with h | h <;> rw [h]
    · exact ih st
    · rcases ih (stInit cfg env st) with h2 | h2 <;> rw [h2]
      · right; rfl
      · right; exact stInit_idem cfg env st

theorem normalizeValues_congr (cfg : LangConfig) (env : LangEnv)
    (db : List LanguageRec) (vs : List String) :
    ∀ st₁ st₂, stInit cfg env st₁ = stInit cfg env st₂ →
      (normalizeValues cfg env db st₁ vs).1 = (normalizeValues cfg env db st₂ vs).1 := by
  induction vs with
  | nil => intro st₁ st₂ _; rfl
  | cons v rest ih =>
    intro st₁ st₂ h
    unfold normalizeValues
    simp only []
    have hpost : stInit cfg env (LanguageExtractor.normalize_language cfg env db st₁ v).2 =
        stInit cfg env (LanguageExtractor.normalize_language cfg env db st₂ v).2 := by
      rw [normalize_language_stInit, normalize_language_stInit, h]
    rw [normalize_language_congr cfg env db st₁ st₂ v h, ih _ _ hpost]

theorem language_extract_state (cfg : LangConfig) (env : LangEnv)
    (db : List LanguageRec) (st : LangState) (item : Item) :
    (LanguageExtractor.extract cfg env db st item).2 = st ∨
    (LanguageExtractor.extract cfg env db st item).2 = stInit cfg env st := by
  unfold LanguageExtractor.extract
  by_cases h : cfg.normalize = true
  · simp only [h, if_true]
    exact normalizeValues_state cfg env db _ st
  · simp only [h]
    left
    simp [h]

theorem language_extract_congr (cfg : LangConfig) (env : LangEnv)
    (db : List LanguageRec) (st₁ st₂ : LangState) (item : Item)
    (h : stInit cfg env st₁ = stInit cfg env st₂) :
    (LanguageExtractor.extract cfg env db st₁ item).1 =
      (LanguageExtractor.extract cfg env db st₂ item).1 := by
  unfold LanguageExtractor.extract
  by_cases hn : cfg.normalize = true
  · simp only [hn, if_true]
    rw [normalizeValues_congr cfg env db _ st₁ st₂ h]
  · simp [hn]

theorem language_extract_idem (cfg : LangConfig) (env : LangEnv)
    (db : List LanguageRec) (st : LangState) (item : Item) :
    LanguageExtractor.extract cfg env db
        (LanguageExtractor.extract cfg env db st item).2 item =
      LanguageExtractor.extract cfg env db st item := by
  rcases language_extract_state cfg env db st item with h | h
  · rw [h]
  · rw [h]
    rw [Prod.ext_iff]
    constructor
    · exact language_extract_congr cfg env db _ st item (stInit_idem cfg env st)
    · rcases language_extract_state cfg env db (stInit cfg env st) item with h2 | h2
      · rw [h2, ← h]
      · rw [h2, stInit_idem, ← h]

theorem normalizeValues_map (cfg : LangConfig) (env : LangEnv)
    (db : List LanguageRec) (vs : List String) :
    ∀ st, (∀ v ∈ vs, (langMatch db (pyStrip v)).isSome = true) →
      (normalizeValues cfg env db st vs).1 =
        vs.map (fun v => some (resolvedPair cfg env db st v)) := by
  induction vs with
  | nil => intro st _; rfl
  | cons v rest ih =>
    intro st hall
    obtain ⟨m, hm⟩ := Option.isSome_iff_exists.mp (hall v (List.mem_cons_self v rest))
    have hhead : LanguageExtractor.normalize_language cfg env db st v =
        (some (m.alpha_3, applyTranslations (stInit cfg env st).translations m.name),
         stInit cfg env st) := by
      unfold LanguageExtractor.normalize_language
      simp only [hm, translate_language_eq]
    unfold normalizeValues
    simp only []
    rw [hhead]
    simp only []
    rw [ih (stInit cfg env st) (fun w hw => hall w (List.mem_cons_of_mem v hw))]
    simp only [resolvedPair, stInit_idem]
    rw [List.map_cons]
    congr 2
    unfold langMatchD
    rw [hm]
    rfl

/-! Helper lemmas: language-database lookups and separator splitting. -/

theorem pyLower_eq_empty (s : String) (h : pyLower s = "") : s = "" := by
  unfold pyLower at h
  rw [String.ext_iff] at h ⊢
  simpa using h

theorem langMatch_empty (db : List LanguageRec) (hdb : ∀ r ∈ db, r.name ≠ "") :
    langMatch db "" = none := by
  unfold langMatch
  simp only []
  show dbGetName db "" = none
  unfold dbGetName
  rw [List.find?_eq_none]
  intro r hr hbeq
  rw [beq_iff_eq] at hbeq
  exact hdb r hr (pyLower_eq_empty r.name (by simpa using hbeq))

theorem language_extract_no_field (cfg : LangConfig) (env : LangEnv)
    (db : List LanguageRec) (st : LangState) (item : Item)
    (hdb : ∀ r ∈ db, r.name ≠ "") (hlang : item.data.language = none) :
    (LanguageExtractor.extract cfg env db st item).1 = none := by
  unfold LanguageExtractor.extract
  rw [hlang]
  simp only [Option.getD_none]
  have hsplit : pySplitSep cfg.values_separator "" = [""] := rfl
  rw [hsplit]
  by_cases hn : cfg.normalize = true
  · simp only [hn, if_true]
    have h1 : LanguageExtractor.normalize_language cfg env db st "" = (none, st) := by
      unfold LanguageExtractor.normalize_language
      simp only [show pyStrip "" = "" from rfl, langMatch_empty db hdb]
      simp
    have h2 : normalizeValues cfg env db st [""] = ([none], st) := by
      unfold normalizeValues
      rw [h1]
      rfl
    rw [h2]
    rfl
  · have hn' : cfg.normalize = false := by simpa using hn
    simp only [hn']
    rfl

theorem langMatch_mem (db : List LanguageRec) (s : String) (m : LanguageRec)
    (h : langMatch db s = some m) : m ∈ db := by
  unfold langMatch at h
  simp only [] at h
  by_cases h3 : (String.mk (s.data.takeWhile (fun c => c != '-' && c != '_'))).length = 3
  · rw [if_pos h3] at h
    cases hA : dbGetAlpha3 db (String.mk (s.data.takeWhile (fun c => c != '-' && c != '_'))) with
    | some m' =>
      rw [hA] at h
      cases h
      exact List.mem_of_find?_eq_some hA
    | none =>
      rw [hA] at h
      exact List.mem_of_find?_eq_some h
  · rw [if_neg h3] at h
    by_cases h2 : (String.mk (s.data.takeWhile (fun c => c != '-' && c != '_'))).length = 2
    · rw [if_pos h2] at h
      exact List.mem_of_find?_eq_some h
    · rw [if_neg h2] at h
      exact List.mem_of_find?_eq_some h

theorem pySplitCharAux_ne_nil (sep : Char) (cs : List Char) : pySplitCharAux sep cs ≠ [] := by
  induction cs with
  | nil => simp [pySplitCharAux]
  | cons c rest ih =>
    unfold pySplitCharAux
    cases h : pySplitCharAux sep rest with
    | nil => exact absurd h ih
    | cons g gs => by_cases hc : c = sep <;> simp [hc]

theorem pySplitSep_ne_nil (sep : Char) (s : String) : pySplitSep sep s ≠ [] := by
  unfold pySplitSep
  simp only [ne_eq, List.map_eq_nil_iff]
  exact pySplitCharAux_ne_nil sep s.data

theorem langMatchD_mem (db : List LanguageRec) (v : String)
    (h : (langMatch db (pyStrip v)).isSome = true) : langMatchD db v ∈ db := by
  obtain ⟨m, hm⟩ := Option.isSome_iff_exists.mp h
  unfold langMatchD
  rw [hm]
  exact langMatch_mem db (pyStrip v) m hm

theorem language_extract_known_codes (cfg : LangConfig) (env : LangEnv)
    (db : List LanguageRec) (st : LangState) (item : Item) (raw : String)
    (hnorm : cfg.normalize = true) (hlang : item.data.language = some raw)
    (hall : ∀ v ∈ pySplitSep cfg.values_separator raw,
      (langMatch db (pyStrip v)).isSome = true)
    (hinj : ∀ r₁ ∈ db, ∀ r₂ ∈ db, r₁.alpha_3 = r₂.alpha_3 → r₁ = r₂) :
    ∃ res,
      (LanguageExtractor.extract cfg env db st item).1 = some res ∧
      res.Sublist ((pySplitSep cfg.values_separator raw).map
        (resolvedPair cfg env db st)) ∧
      (∀ x, x ∈ res ↔ x ∈ (pySplitSep cfg.values_separator raw).map
        (resolvedPair cfg env db st)) ∧
      (res.map Prod.fst).Nodup ∧
      (∀ p ∈ res, ∃ r ∈ db, p.1 = r.alpha_3) := by
  have hmap := normalizeValues_map cfg env db (pySplitSep cfg.values_separator raw) st hall
  set values := pySplitSep cfg.values_separator raw with hvdef
  set R := values.map (resolvedPair cfg env db st) with hRdef
  have hvals1 : (normalizeValues cfg env db st values).1 = R.map some := by
    rw [hmap, hRdef, List.map_map]
    rfl
  set vals := (normalizeValues cfg env db st values).1 with hvalsdef
  set res := List.filterMap id (pyDedup vals) with hresdef
  have hmem : ∀ x, x ∈ res ↔ x ∈ R := by
    intro x
    rw [hresdef]
    constructor
    · intro hx
      obtain ⟨o, ho, hox⟩ := List.mem_filterMap.mp hx
      rcases o with _ | p
      · cases hox
      · cases hox
        have : some x ∈ vals := (mem_pyDedup vals (some x)).mp ho
        rw [hvals1] at this
        obtain ⟨r, hr, hrx⟩ := List.mem_map.mp this
        cases hrx
        exact hr
    · intro hx
      apply List.mem_filterMap.mpr
      refine ⟨some x, ?_, rfl⟩
      apply (mem_pyDedup vals (some x)).mpr
      rw [hvals1]
      exact List.mem_map.mpr ⟨x, hx, rfl⟩
  have hR_ne : R ≠ [] := by
    rw [hRdef]
    simp only [ne_eq, List.map_eq_nil_iff]
    exact pySplitSep_ne_nil cfg.values_separator raw
  have hres_ne : res ≠ [] := by
    obtain ⟨x, hx⟩ := List.exists_mem_of_ne_nil R hR_ne
    intro hcon
    have := (hmem x).mpr hx
    rw [hcon] at this
    exact List.not_mem_nil x this
  have hout : (LanguageExtractor.extract cfg env db st item).1 = some res := by
    unfold LanguageExtractor.extract
    rw [hlang]
    simp only [Option.getD_some, hnorm, if_true, ← hvdef, ← hvalsdef, ← hresdef]
    simp [hres_ne]
  refine ⟨res, hout, ?_, hmem, ?_, ?_⟩
  · have h1 : res.Sublist (List.filterMap id vals) :=
      List.Sublist.filterMap id (pyDedup_sublist vals)
    have h2 : List.filterMap id vals = R := by
      rw [hvals1, List.filterMap_map]
      simp
    rw [h2] at h1
    exact h1
  · have hnodup : res.Nodup := by
      rw [hresdef]
      refine List.Nodup.filterMap ?_ (pyDedup_nodup vals)
      intro a a' b hb hb'
      cases a with
      | none => cases hb
      | some p =>
        cases a' with
        | none => cases hb'
        | some p' =>
          simp only [id, Option.mem_def, Option.some.injEq] at hb hb'
          rw [hb, hb']
    refine List.Nodup.map_on ?_ hnodup
    intro x hx y hy hfst
    have hxR := (hmem x).mp hx
    have hyR := (hmem y).mp hy
    obtain ⟨v, hv, hvx⟩ := List.mem_map.mp hxR
    obtain ⟨w, hw, hwy⟩ := List.mem_map.mp hyR
    have hvm : langMatchD db v ∈ db := langMatchD_mem db v (hall v hv)
    have hwm : langMatchD db w ∈ db := langMatchD_mem db w (hall w hw)
    rw [← hvx, ← hwy]
    rw [← hvx, ← hwy] at hfst
    unfold resolvedPair at hfst ⊢
    simp only [] at hfst
    have : langMatchD db v = langMatchD db w := hinj _ hvm _ hwm hfst
    rw [this]
  · intro p hp
    have hpR := (hmem p).mp hp
    obtain ⟨v, hv, hvp⟩ := List.mem_map.mp hpR
    refine ⟨langMatchD db v, langMatchD_mem db v (hall v hv), ?_⟩
    rw [← hvp]
    rfl

/-! Helper lemmas: the pipeline over reusable extractor instances. -/

theorem runField_key {D : Type} (env : LangEnv) (item : Item) (ctx : LibraryContext)
    (f : PipeField D) : ((runField env item ctx f).2).key = f.key := by
  obtain ⟨key, step, st⟩ := f
  cases step <;> rfl

theorem runField_idem {D : Type} (env : LangEnv) (item : Item) (ctx : LibraryContext)
    (f : PipeField D) :
    runField env item ctx (runField env item ctx f).2 = runField env item ctx f := by
  obtain ⟨key, step, st⟩ := f
  cases step with
  | pure g => rfl
  | language cfg db enc =>
    have h := language_extract_idem cfg env db st item
    unfold runField
    simp only []
    cases hE : LanguageExtractor.extract cfg env db st item with
    | mk r st' =>
      rw [hE] at h
      simp only [hE, h]

theorem runPipeline_cons {D : Type} (env : LangEnv) (item : Item) (ctx : LibraryContext)
    (f : PipeField D) (rest : List (PipeField D)) (doc : Document D) :
    runPipeline env item ctx (f :: rest) doc =
      ((runPipeline env item ctx rest
          (storeDoc doc f.key (runField env item ctx f).1)).1,
        (runField env item ctx f).2 ::
          (runPipeline env item ctx rest
            (storeDoc doc f.key (runField env item ctx f).1)).2) := rfl

theorem runPipeline_two_run {D : Type} (env : LangEnv) (item : Item)
    (ctx : LibraryContext) (fields : List (PipeField D)) :
    ∀ doc : Document D,
      runPipeline env item ctx (runPipeline env item ctx fields doc).2 doc =
        runPipeline env item ctx fields doc := by
  induction fields with
  | nil => intro doc; rfl
  | cons f rest ih =>
    intro doc
    simp only [runPipeline_cons, runField_idem, runField_key, ih]

/-! Helper lemma: the multi-merge loop. -/

theorem multi_extract_aux_spec {I C S : Type} (fmt : String) (item : I) (ctx : C)
    (spec : S) (children : List (ChildExtractor I C S)) (acc : List PyVal)
    (h : ∀ ex ∈ children, ex.format = fmt) :
    MultiExtractor.extractAux fmt item ctx spec children acc =
      .ok (acc ++ children.flatMap (fun ex => multiContribution (ex.run item ctx spec))) := by
  induction children generalizing acc with
  | nil => simp [MultiExtractor.extractAux]
  | cons ex rest ih =>
    have hex : ex.format = fmt := h ex (List.mem_cons_self ex rest)
    unfold MultiExtractor.extractAux
    rw [if_pos hex.symm]
    rw [ih _ (fun e he => h e (List.mem_cons_of_mem ex he))]
    simp [multiContribution]
    by_cases h1 : (ex.run item ctx spec).isNonStrIterable
    · simp [h1]
    · simp [h1]
      by_cases h2 : (ex.run item ctx spec).truthy
      · simp [h2]
      · simp [h2]


/-! The claims. -/

/-- C1 (counterexample): on the Jane Doe item the creators-search extractor
does not return the claimed three-entry sequence "Jane Doe", "Jane Doe",
"Doe, Jane"; it returns the two-entry sequence "Jane Doe", "Doe, Jane". -/
theorem creators_search_three_entry_cex :
    CreatorsExtractor.extract janeDoeItem = some ("Jane Doe" ++ RECORD_SEPARATOR ++ "Doe, Jane") ∧
    CreatorsExtractor.extract janeDoeItem ≠
      some ("Jane Doe" ++ RECORD_SEPARATOR ++ "Jane Doe" ++ RECORD_SEPARATOR ++ "Doe, Jane") := by
  constructor
  · decide
  · decide

/-- C1 (amended): for every item with a single creator having firstName
"Jane", lastName "Doe" and no display name, the creators-search extractor
returns the two-entry sequence "Jane Doe", "Doe, Jane" joined by the
record-separator character 0x1E (no separate first/last entries, and no
duplicated "Jane Doe"). -/
theorem creators_search_jane_doe (item : Item) (ct : Option String)
    (h : item.data.creators =
      [{ name := none, firstName := some "Jane", lastName := some "Doe", creatorType := ct }]) :
    CreatorsExtractor.extract item = some ("Jane Doe" ++ RECORD_SEPARATOR ++ "Doe, Jane") := by
  unfold CreatorsExtractor.extract
  rw [h]
  rfl

/-- C1 (witness): the amended claim at the concrete Jane Doe item. -/
theorem creators_search_jane_doe_witness :
    CreatorsExtractor.extract janeDoeItem = some ("Jane Doe" ++ RECORD_SEPARATOR ++ "Doe, Jane") :=
  creators_search_jane_doe janeDoeItem none rfl

/-- C2: for a collection chain root → A → B, an item in B and a facet spec
targeting root, the facet-tree extractor returns exactly the set of the two
root-exclusive prefix paths (A,) and (A, B), each paired with the stripped
collection name (the label) of its last segment. -/
theorem collection_facet_tree_round_trip
    (rootK aK bK nroot na nb : String) (ctx : LibraryContext) (item : Item)
    (spec : FacetSpec)
    (hab : aK ≠ bK) (hra : rootK ≠ aK) (hrb : rootK ≠ bK)
    (hcols : ctx.collections =
      [(rootK, { name := nroot, parent := none }),
       (aK, { name := na, parent := some rootK }),
       (bK, { name := nb, parent := some aK })])
    (hitem : item.data.collections = [bK])
    (hspec : spec.collection_key = rootK) :
    CollectionFacetTreeExtractor.extract item ctx spec =
      some {([aK], pyStrip na), ([aK, bK], pyStrip nb)} := by
  simp only [CollectionFacetTreeExtractor.extract, LibraryContext.ancestors, hcols, hitem,
    hspec, _expand_paths]
  simp [pyGet, ancestorsFuel, hra, hrb, hab, List.foldl]
  exact Finset.pair_comm _ _

/-- C2 (witness): the round trip at the concrete chain ROOT → AAAA → BBBB. -/
theorem collection_facet_tree_round_trip_witness :
    CollectionFacetTreeExtractor.extract facetItem facetCtx { collection_key := "ROOT" } =
      some {(["AAAA"], pyStrip "Sub A"), (["AAAA", "BBBB"], pyStrip "Sub B")} :=
  collection_facet_tree_round_trip "ROOT" "AAAA" "BBBB" "Root" "Sub A" "Sub B"
    facetCtx facetItem { collection_key := "ROOT" }
    (by decide) (by decide) (by decide) rfl rfl rfl

/-- C3: for every item whose `parsedDate` is "2023-05-14", the year-facet
extractor yields the hierarchical century/decade/year path "2000", "2020",
"2023" — emitted, as facet paths are, as its prefix-path expansion. -/
theorem year_facet_2023_path (item : Item) (h : item.meta.parsedDate = some "2023-05-14") :
    YearFacetExtractor.extract item = some (_expand_paths ["2000", "2020", "2023"]) ∧
    _expand_paths ["2000", "2020", "2023"] =
      [["2000"], ["2000", "2020"], ["2000", "2020", "2023"]] := by
  constructor
  · unfold YearFacetExtractor.extract
    rw [h]
    rfl
  · rfl

/-- C3 (witness): the year facet at the concrete 2023-05-14 item. -/
theorem year_facet_2023_path_witness :
    YearFacetExtractor.extract y2023Item = some (_expand_paths ["2000", "2020", "2023"]) ∧
    _expand_paths ["2000", "2020", "2023"] =
      [["2000"], ["2000", "2020"], ["2000", "2020", "2023"]] :=
  year_facet_2023_path y2023Item rfl

/-- C4 (code bug): with `check_subcollections` disabled, the membership
extractor flattens each collection key string into its characters, so an
item that belongs to the target collection "ABCDEFGH" is reported as not
belonging (`some false`), contradicting the constructor's documentation;
with `check_subcollections` enabled the same membership holds. -/
theorem in_collection_flattening_bug :
    "ABCDEFGH" ∈ inCollItem.data.collections ∧
    InCollectionExtractor.extract
      { collection_key := "ABCDEFGH", true_only := false, check_subcollections := false }
      inCollItem {} = some false ∧
    InCollectionExtractor.extract
      { collection_key := "ABCDEFGH", true_only := false, check_subcollections := true }
      inCollItem {} = some true := by
  refine ⟨by decide, by decide, by decide⟩

/-- C5: the language extractor returns `None` for items without a language
field (for any database whose records have non-empty names); and for every
language string all of whose separator-delimited entries resolve in the
database, the result is the order-preserving de-duplication of the resolved
(ISO 639-3 code, translated name) pairs: a sublist of the resolved
sequence with the same members, whose codes are pairwise distinct and all
drawn from database `alpha_3` fields.  Concretely, "en; fre; eng" resolves
to eng and fra with the duplicate collapsed. -/
theorem language_extractor_normalization :
    (∀ (cfg : LangConfig) (env : LangEnv) (db : List LanguageRec) (st : LangState)
      (item : Item), (∀ r ∈ db, r.name ≠ "") → item.data.language = none →
      (LanguageExtractor.extract cfg env db st item).1 = none) ∧
    (∀ (cfg : LangConfig) (env : LangEnv) (db : List LanguageRec) (st : LangState)
      (item : Item) (raw : String),
      cfg.normalize = true → item.data.language = some raw →
      (∀ v ∈ pySplitSep cfg.values_separator raw,
        (langMatch db (pyStrip v)).isSome = true) →
      (∀ r₁ ∈ db, ∀ r₂ ∈ db, r₁.alpha_3 = r₂.alpha_3 → r₁ = r₂) →
      ∃ res,
        (LanguageExtractor.extract cfg env db st item).1 = some res ∧
        res.Sublist ((pySplitSep cfg.values_separator raw).map
          (resolvedPair cfg env db st)) ∧
        (∀ x, x ∈ res ↔ x ∈ (pySplitSep cfg.values_separator raw).map
          (resolvedPair cfg env db st)) ∧
        (res.map Prod.fst).Nodup ∧
        (∀ p ∈ res, ∃ r ∈ db, p.1 = r.alpha_3)) ∧
    (LanguageExtractor.extract {} {} langDb {} langItem).1 =
      some [("eng", "English"), ("fra", "French")] :=
  ⟨language_extract_no_field, language_extract_known_codes, rfl⟩

/-- C6 (counterexample): an item of the unknown type "attachment" gets a
`None` label but no warning, refuting "returns null with a warning logged
for unknown types" as universally stated. -/
theorem label_attachment_no_warning_cex :
    (ItemTypeLabelExtractor.extract attachmentItem {}).1 = none ∧
    (ItemTypeLabelExtractor.extract attachmentItem {}).2 = [] := by
  constructor <;> rfl

/-- C6 (amended): title extraction returns the empty string for
"note"/"annotation" items and for types without a field schema; the
item-type-label extractor returns `None` with a warning for unknown truthy
types other than "attachment"; and for a type whose schema is non-empty,
the title extractor reads the item field named by the schema's first
entry.  Concretely, a "book" item's title is read through the schema. -/
theorem title_and_label_schema :
    (∀ (item : Item) (ctx : LibraryContext) (t : String),
      item.data.itemType = some t →
      t = "note" ∨ t = "annotation" ∨ pyGet ctx.item_fields t = none →
      ItemTitleExtractor.extract item ctx = "") ∧
    (∀ (item : Item) (ctx : LibraryContext) (t : String),
      item.data.itemType = some t → t ≠ "" → t ≠ "attachment" →
      pyGet ctx.item_types t = none →
      ItemTypeLabelExtractor.extract item ctx =
        (none, ["Missing or unknown item type '" ++ t ++ "'"])) ∧
    (∀ (item : Item) (ctx : LibraryContext) (t : String) (f0 : FieldInfo)
      (rest : List FieldInfo) (fname : String),
      item.data.itemType = some t →
      t ≠ "note" → t ≠ "annotation" →
      pyGet ctx.item_fields t = some (f0 :: rest) →
      f0.field = some fname →
      ItemTitleExtractor.extract item ctx = (pyGet item.data.fields fname).getD "") ∧
    ItemTitleExtractor.extract bookItem bookCtx = "The Title" := by
  refine ⟨?_, ?_, ?_, rfl⟩
  · intro item ctx t ht hcase
    unfold ItemTitleExtractor.extract
    rw [ht]
    rcases hcase with h | h | h
    · simp [h]
    · simp [h]
    · by_cases hn : t = "annotation" ∨ t = "note"
      · simp [hn]
      · simp only [hn, if_false]
        rw [h]
  · intro item ctx t ht hne hatt hunknown
    unfold ItemTypeLabelExtractor.extract
    rw [ht]
    simp [hne, hunknown, optRepr, hatt]
  · intro item ctx t f0 rest fname ht hnote hann hfields hf0
    unfold ItemTitleExtractor.extract
    rw [ht]
    have : ¬ (t = "annotation" ∨ t = "note") := by
      rintro (h | h) <;> simp_all
    simp only [this, if_false]
    rw [hfields]
    simp [hf0]

/-- C7: `extract_and_store` is a frame-preserving store: a `None` extraction
leaves the document unchanged, and a non-`None` extraction assigns exactly
the encoded value under `spec.key` and changes no other key. -/
theorem extract_and_store_frame :
    ∀ (I C V E D : Type) (ex : ExtractorSig I C V E D) (document : Document D)
      (item : I) (library_context : C) (spec : FieldSpec V E),
      (ex.extract item library_context spec = none →
        Extractor.extract_and_store ex document item library_context spec = document) ∧
      (∀ v, ex.extract item library_context spec = some v →
        Extractor.extract_and_store ex document item library_context spec spec.key =
          some (ex.encode v spec) ∧
        ∀ k, k ≠ spec.key →
          Extractor.extract_and_store ex document item library_context spec k =
            document k) := by
  intro I C V E D ex document item library_context spec
  constructor
  · intro h
    unfold Extractor.extract_and_store
    rw [h]
  · intro v h
    unfold Extractor.extract_and_store
    rw [h]
    constructor
    · simp
    · intro k hk
      simp [hk]

/-- C8: when every child declares the parent's format, the multi-merge
extractor runs every child in order and concatenates the per-child
contributions — the elements of a non-string-iterable result, or the
result itself when truthy — returning `None` when nothing accumulated. -/
theorem multi_extract_merge :
    ∀ (I C S : Type) (fmt : String) (extractors : List (ChildExtractor I C S))
      (item : I) (ctx : C) (spec : S),
      (∀ ex ∈ extractors, ex.format = fmt) →
      MultiExtractor.extract fmt extractors item ctx spec =
        .ok (let values :=
              extractors.flatMap (fun ex => multiContribution (ex.run item ctx spec))
             if values.isEmpty then Option.none else some values) := by
  intro I C S fmt extractors item ctx spec h
  unfold MultiExtractor.extract
  rw [multi_extract_aux_spec fmt item ctx spec extractors [] h]
  rfl

/-- C8 (witness): the merge over a list child, a `None` child and a
string child. -/
theorem multi_extract_merge_witness :
    MultiExtractor.extract "data" [multiChildList, multiChildNone, multiChildStr] () () () =
      .ok (let values :=
            [multiChildList, multiChildNone, multiChildStr].flatMap
              (fun ex => multiContribution (ex.run () () ()))
           if values.isEmpty then Option.none else some values) :=
  multi_extract_merge Unit Unit Unit "data" [multiChildList, multiChildNone, multiChildStr]
    () () () (by decide)

/-- C9: the pipeline is deterministic across runs: re-running the pipeline
with the instance states left by a first run rebuilds the identical
document; re-running `translate_language` returns the identical value and
state; the lazy catalog initialization is the deterministic function of
configuration and environment; and the language extraction value does not
depend on whether the catalog is already initialized.  Concretely, the
one-field language pipeline stores the resolved pairs. -/
theorem pipeline_determinism :
    (∀ (D : Type) (env : LangEnv) (item : Item) (ctx : LibraryContext)
      (fields : List (PipeField D)) (doc : Document D),
      runPipeline env item ctx (runPipeline env item ctx fields doc).2 doc =
        runPipeline env item ctx fields doc) ∧
    (∀ (cfg : LangConfig) (env : LangEnv) (st : LangState) (nm : String),
      LanguageExtractor.translate_language cfg env
          ((LanguageExtractor.translate_language cfg env st nm).2) nm =
        LanguageExtractor.translate_language cfg env st nm) ∧
    (∀ (cfg : LangConfig) (env : LangEnv) (st : LangState) (nm : String),
      st.translations_initialized = false →
      LanguageExtractor.translate_language cfg env st nm =
        (applyTranslations (initTranslations cfg env) nm,
          { translations := initTranslations cfg env, translations_initialized := true })) ∧
    (∀ (cfg : LangConfig) (env : LangEnv) (db : List LanguageRec) (st : LangState)
      (item : Item),
      (LanguageExtractor.extract cfg env db st item).1 =
        (LanguageExtractor.extract cfg env db (stInit cfg env st) item).1) ∧
    (runPipeline {} langItem {} langPipeline Document.empty).1 "language" =
      some [("eng", "English"), ("fra", "French")] := by
  refine ⟨?_, ?_, ?_, ?_, rfl⟩
  · intro D env item ctx fields doc
    exact runPipeline_two_run env item ctx fields doc
  · intro cfg env st nm
    simp only [translate_language_eq, stInit_idem]
  · intro cfg env st nm h
    rw [translate_language_eq]
    simp [stInit, h]
  · intro cfg env db st item
    exact language_extract_congr cfg env db st (stInit cfg env st) item
      (stInit_idem cfg env st).symm

/-- C10: the creator sort key is total: storing it always writes the
document key (the extractor returns a string, never `None`), and when no
creator of the item matches any declared creator type the string is empty.
Concretely, an item without creators yields the empty string. -/
theorem sort_creator_total :
    (∀ (E : Type) (document : Document E) (item : Item) (ctx : LibraryContext)
      (spec : FieldSpec String E),
      Extractor.extract_and_store (SortCreatorExtractor.sig E) document item ctx spec spec.key =
        some (spec.encode (SortCreatorExtractor.extract item ctx))) ∧
    (∀ (item : Item) (ctx : LibraryContext),
      (∀ ct ∈ ctx.get_creator_types item.data, ∀ c ∈ item.data.creators,
        pyEqStrOpt (c.creatorType.getD "") ct.creatorType = false) →
      SortCreatorExtractor.extract item ctx = "") ∧
    SortCreatorExtractor.extract {} {} = "" := by
  refine ⟨?_, ?_, rfl⟩
  · intro E document item ctx spec
    unfold Extractor.extract_and_store SortCreatorExtractor.sig
    simp [encode_single]
  · intro item ctx h
    unfold SortCreatorExtractor.extract
    have hloop : ∀ cts, (∀ ct ∈ cts, ∀ c ∈ item.data.creators,
        pyEqStrOpt (c.creatorType.getD "") ct.creatorType = false) →
        sortCreatorLoop item cts = [] := by
      intro cts
      induction cts with
      | nil => intro _; rfl
      | cons ct rest ih =>
        intro hall
        unfold sortCreatorLoop
        have hempty : item.data.creators.filterMap (fun c =>
            if pyEqStrOpt (c.creatorType.getD "") ct.creatorType then
              some (appendCreatorText c) else none) = [] := by
          rw [List.filterMap_eq_nil_iff]
          intro c hc
          simp [hall ct (List.mem_cons_self ct rest) c hc]
        rw [hempty]
        simpa using ih (fun ct' hct' => hall ct' (List.mem_cons_of_mem ct hct'))
    rw [hloop _ h]
    rfl

end Kerko
